import Mathlib

/-!
Verification development for the zt-3-screener utilities.

This file gives a shallow embedding, in Lean 4, of the two scripts of the
repository — the report publisher (report_host.py) and the instrument-key
validator (utils/validate_isins.py) — and proves the behavioural properties
the specification states about them.

Conventions of the embedding:
* Python strings are Lean `String`s; `str.split(sep)` with a one-character
  separator is modelled by `splitOnChar` over the underlying character list.
* Python dicts (insertion-ordered, update-in-place) are modelled by
  association lists with `dictInsert` / `dictLookup` / `dictKeys`.
* Filesystem contents are passed in explicitly: a directory listing is a
  function from a directory path to the list of basenames it holds.
* Network responses are passed in explicitly as a function from the attempt
  number to the outcome of that attempt.
-/

namespace ZT3

/-! ## Definitions -/

/-! ### Python `str.split(sep)` with a one-character separator -/

/-- Python `s.split(sep)` for a one-character separator `sep`, on the
underlying character list: always returns at least one (possibly empty)
segment, and one extra segment per separator occurrence. -/
def splitOnChar (c : Char) : List Char → List (List Char)
  | [] => [[]]
  | x :: xs =>
    match splitOnChar c xs with
    | [] => [[]]
    | h :: t => if x = c then [] :: h :: t else (x :: h) :: t

/-- Python `s.split(sep)` (one-character separator), at the `String` level. -/
def pySplit (sep : Char) (s : String) : List String :=
  (splitOnChar sep s.data).map fun l => ⟨l⟩

/-! ### Date-token extraction (report_host.update_landing_page, lines 89–94) -/

/-- `basename.split('_')[2].split('.')[0]` with the surrounding
try/except: `none` models the caught IndexError (fewer than three
underscore-separated segments), in which case the file is skipped. -/
def parse_trading_date (basename : String) : Option String :=
  match (pySplit '_' basename).get? 2 with
  | some seg => some ((pySplit '.' seg).headD "")
  | none => none

/-! ### Python dict as an insertion-ordered association list -/

/-- `d[k] = v` on a Python dict: update the value in place when the key is
present, append the pair otherwise. -/
def dictInsert (k : String) (v : α) : List (String × α) → List (String × α)
  | [] => [(k, v)]
  | p :: rest => if p.1 = k then (k, v) :: rest else p :: dictInsert k v rest

/-- `d.get(k)` on a Python dict. -/
def dictLookup (k : String) : List (String × α) → Option α
  | [] => none
  | p :: rest => if p.1 = k then some p.2 else dictLookup k rest

/-- `d.keys()` on a Python dict, in insertion order. -/
def dictKeys (d : List (String × α)) : List String := d.map Prod.fst

/-! ### The publisher environment (report_host.py) -/

/-- A file path, as the pair of the directory it lives in and its basename
(`os.path.join(dir, base)` / `os.path.basename`). -/
abbrev Filepath := String × String

/-- The externally supplied state `report_host.py` runs against: the project
root (`PROJECT_ROOT`), the configured source report folder
(`config.settings` with key paths and key report_dir), the directory
listings on disk, and the outcomes of the three git subprocesses. -/
structure PublishEnv where
  projectRoot : String
  reportDir : String
  listing : String → List String
  addOk : Bool
  commitOk : Bool
  pushOk : Bool

/-- `DOCS_DIR = os.path.join(PROJECT_ROOT, "docs")` (report_host.py line 11). -/
def DOCS_DIR (env : PublishEnv) : String := env.projectRoot ++ "/docs"

/-- Whether a basename matches a glob of the shape
`<pre><wild single-character wildcards><suf>`; used for
`success_report_????????.html` and `failure_report_????????.html`. -/
def globMatch (pre suf : String) (wild : Nat) (base : String) : Bool :=
  decide (base.data.length = pre.data.length + wild + suf.data.length ∧
    base.data.take pre.data.length = pre.data ∧
    base.data.drop (pre.data.length + wild) = suf.data)

/-- `glob.glob(os.path.join(dir, pattern))`: the files of `dir` whose
basenames match the pattern, as full paths. -/
def globScan (listing : String → List String) (dir : String)
    (pre suf : String) (wild : Nat) : List Filepath :=
  ((listing dir).filter (globMatch pre suf wild)).map fun b => (dir, b)

/-- `success_files` of `update_landing_page` (line 85): the scan runs over
`config.settings` key paths / report_dir. -/
def success_files (env : PublishEnv) : List Filepath :=
  globScan env.listing env.reportDir "success_report_" ".html" 8

/-- `failure_files` of `update_landing_page` (line 108). -/
def failure_files (env : PublishEnv) : List Filepath :=
  globScan env.listing env.reportDir "failure_report_" ".html" 8

/-! ### The per-role date→file dict and its top-5 selection -/

/-- One iteration of the `for filepath in ..._files` loop (lines 87–95):
parse the date token from the basename and store `daily[date] = filepath`;
a file whose token cannot be parsed is skipped. -/
def dailyStep (acc : List (String × Filepath)) (fp : Filepath) :
    List (String × Filepath) :=
  match parse_trading_date fp.2 with
  | some d => dictInsert d fp acc
  | none => acc

/-- The `daily_success` / `daily_failure` dict after the loop. -/
def buildDaily (files : List Filepath) : List (String × Filepath) :=
  files.foldl dailyStep []

/-- The last file of the discovery sequence carrying the given date token
(the spec's "most-recently-discovered file for that role/date"). -/
def lastParsed (files : List Filepath) (d : String) : Option Filepath :=
  files.reverse.find? fun fp => decide (parse_trading_date fp.2 = some d)

/-- `sorted(daily.keys(), reverse=True)[:5]` (lines 96 and 119). -/
def sortedDates (d : List (String × Filepath)) : List String :=
  (List.insertionSort (· ≥ ·) (dictKeys d)).take 5

/-- The entries rendered into one section of the landing page, in rendering
order: the sorted dates, each paired with the basename of its file
(`os.path.basename(daily[day])`, lines 98–105 and 121–128). -/
def roleEntries (files : List Filepath) : List (String × String) :=
  (sortedDates (buildDaily files)).filterMap fun day =>
    (dictLookup day (buildDaily files)).map fun fp => (day, fp.2)

/-- The landing page content that varies with the scanned files; the static
HTML shell around the two lists is fixed text and is not modelled. -/
structure LandingPage where
  successEntries : List (String × String)
  failureEntries : List (String × String)
deriving DecidableEq

/-- `update_landing_page` (report_host.py lines 72–168), as the landing-page
content it writes to `docs/index.html`. -/
def update_landing_page (env : PublishEnv) : LandingPage :=
  { successEntries := roleEntries (success_files env)
  , failureEntries := roleEntries (failure_files env) }

/-- Follows the spec's words, for comparison with `update_landing_page`
(which is translated from the source): the spec says the scan runs over the
destination docs folder, so this variant scans `DOCS_DIR` instead of the
configured report folder. -/
def update_landing_page_specScan (env : PublishEnv) : LandingPage :=
  { successEntries :=
      roleEntries (globScan env.listing (DOCS_DIR env) "success_report_" ".html" 8)
  , failureEntries :=
      roleEntries (globScan env.listing (DOCS_DIR env) "failure_report_" ".html" 8) }

/-! ### publish_both_reports (report_host.py lines 46–70) -/

/-- The three git subprocess steps of `publish_both_reports`. -/
inductive GitStep where
  | add : GitStep
  | commit : GitStep
  | push : GitStep
deriving DecidableEq

/-- The git steps `publish_both_reports` actually runs, in order: `git add`
always runs; `git commit` only when the add succeeded; `git push` only when
the commit also succeeded (the nested ifs of lines 61–70). -/
def publishGitSteps (addOk commitOk : Bool) : List GitStep :=
  GitStep.add ::
    (if addOk then GitStep.commit :: (if commitOk then [GitStep.push] else []) else [])

/-- `sync_reports_to_docs` (lines 32–44): every `*.html` file of the report
folder is copied into docs; the copies are returned as the list of basenames
written into the docs folder. -/
def sync_reports_to_docs (env : PublishEnv) : List String :=
  (env.listing env.reportDir).filter fun b => b.endsWith ".html"

/-- The observable outcome of one `publish_both_reports` run. -/
structure PublishResult where
  syncedReports : List String
  page : LandingPage
  gitSteps : List GitStep
deriving DecidableEq

/-- `publish_both_reports(success_filepath, failure_filepath)` (lines
46–70). The two parameters are declared but the body never reads them (the
copying of the individual reports was removed, per the comment at lines
52–53). -/
def publish_both_reports (env : PublishEnv)
    (success_filepath failure_filepath : Option String) : PublishResult :=
  { syncedReports := sync_reports_to_docs env
  , page := update_landing_page env
  , gitSteps := publishGitSteps env.addOk env.commitOk }

/-! ### validate_instrument_key (utils/validate_isins.py lines 40–124) -/

/-- The possible outcomes of one `requests.get` of the validation URL, as
classified by the branches of `validate_instrument_key`. -/
inductive ApiOutcome where
  | http200 : (apiSuccess : Bool) → ApiOutcome
  | http429 : ApiOutcome
  | http404 : ApiOutcome
  | http400 : ApiOutcome
  | httpOther : ApiOutcome
  | requestError : ApiOutcome
  | unexpectedError : ApiOutcome
deriving DecidableEq

/-- What one loop iteration of `validate_instrument_key` decides from its
outcome: `some b` means "return b now, whatever the attempt number";
`none` means "retry if this is the first attempt, else return False". -/
def attemptOutcome : ApiOutcome → Option Bool
  | .http200 true => some true
  | .http200 false => none
  | .http429 => none
  | .http404 => some false
  | .http400 => some false
  | .httpOther => none
  | .requestError => none
  | .unexpectedError => none

/-- The observables of one `validate_instrument_key` call: the returned
bool, the number of requests issued, and the `time.sleep` delays taken
(in seconds) between them. -/
structure ValidationRun where
  result : Bool
  attempts : Nat
  sleeps : List Nat
deriving DecidableEq

/-- `validate_instrument_key` (lines 40–124): the `for attempt in range(2)`
loop, run against the per-attempt outcomes `resp`. Every retry is preceded
by the fixed `time.sleep(3)`. -/
def validate_instrument_key (resp : Nat → ApiOutcome) : ValidationRun :=
  match attemptOutcome (resp 0) with
  | some b => ⟨b, 1, []⟩
  | none =>
    match attemptOutcome (resp 1) with
    | some b => ⟨b, 2, [3]⟩
    | none => ⟨false, 2, [3]⟩

/-! ### send_stocklist_to_discord (utils/validate_isins.py lines 126–249) -/

/-- A stock-list entry (the dicts held in results, valid / invalid). -/
structure Stock where
  symbol : String
  isin : String
deriving DecidableEq

/-- `MAX_CHARS_PER_DESC` (line 160). -/
def MAX_CHARS_PER_DESC : Nat := 3800

/-- `MAX_LINES_PER_DESC` (line 161). -/
def MAX_LINES_PER_DESC : Nat := 45

/-- `max_embeds_per_message` (line 232). -/
def max_embeds_per_message : Nat := 10

/-- The line rendered for the i-th (0-based) invalid stock (line 201). -/
def stockLine (i : Nat) (s : Stock) : String :=
  toString (i + 1) ++ ". " ++ s.symbol ++ " (" ++ s.isin ++ ")\n"

/-- The enumerated lines of the invalid-stocks loop. -/
def invalidLines (invalid : List Stock) : List String :=
  invalid.enum.map fun p => stockLine p.1 p.2

/-- `s.count('\n')`. -/
def countNewlines (s : String) : Nat := s.data.count '\n'

/-- One iteration of the chunking loop (lines 200–214): the accumulator is
the pair of flushed chunks and the running `current_desc_invalid`. A new
chunk starts when appending the line would overflow the character budget of
a nonempty running text, or when the running text already holds the full
line budget. -/
def chunkStep (acc : List String × String) (line : String) :
    List String × String :=
  if (MAX_CHARS_PER_DESC < acc.2.length + line.length ∧ acc.2 ≠ "") ∨
      MAX_LINES_PER_DESC ≤ countNewlines acc.2 then
    (acc.1 ++ [acc.2], line)
  else
    (acc.1, acc.2 ++ line)

/-- The descriptions of the invalid-list embeds: the chunking loop over the
rendered lines, plus the final `if current_desc_invalid:` flush
(lines 216–224). -/
def invalidChunks (invalid : List Stock) : List String :=
  let r := (invalidLines invalid).foldl chunkStep ([], "")
  if r.2 ≠ "" then r.1 ++ [r.2] else r.1

/-- A Discord embed, as the fields the claims are about. -/
structure Embed where
  title : String
  description : String
deriving DecidableEq

/-- `total_parts_invalid` (line 195). -/
def total_parts_invalid (invalid : List Stock) : Nat :=
  (invalid.length + MAX_LINES_PER_DESC - 1) / MAX_LINES_PER_DESC

/-- The summary description (lines 164–173). -/
def summary_desc (valid invalid : List Stock) (total : Nat) : String :=
  if valid = [] ∧ invalid = [] then
    "Checked " ++ toString total ++ " stocks. No valid or invalid stocks found (unexpected)."
  else if invalid ≠ [] then
    "Checked " ++ toString total ++ " stocks. Found issues."
  else
    "Checked " ++ toString total ++ " stocks. All entries are valid."

/-- The invalid-list embeds appended after the summary embed (the
`if invalid_stocks:` block, lines 189–224). -/
def invalidEmbeds (invalid : List Stock) : List Embed :=
  if invalid = [] then []
  else
    (invalidChunks invalid).enum.map fun p =>
      { title := "Invalid Stock List (" ++ toString invalid.length ++ " Total)" ++
          (if 1 < total_parts_invalid invalid then
            " - Part " ++ toString (p.1 + 1) ++ "/" ++ toString (total_parts_invalid invalid)
          else "")
      , description := p.2 }

/-- `embeds_to_send` after embed generation (lines 154–224): the summary
embed first, then the invalid-list parts. -/
def embeds_to_send (valid invalid : List Stock) (total : Nat) : List Embed :=
  { title := "Stock List Validation Summary"
  , description := summary_desc valid invalid total } :: invalidEmbeds invalid

/-- The batching loop (lines 232–238): message i carries
`embeds_to_send[start:start+10]`, skipping empty slices. -/
def webhookBatches (embeds : List Embed) : List (List Embed) :=
  ((List.range
      ((embeds.length + max_embeds_per_message - 1) / max_embeds_per_message)).map
    fun i => (embeds.drop (i * max_embeds_per_message)).take max_embeds_per_message).filter
    fun c => !(c.isEmpty)

/-! ### The timestamp of the notification footer (lines 140–151) -/

/-- The IST clock value obtained from `datetime.now(ist_tz)`, carrying its
calendar date and the two pre-rendered `strftime` forms the code chooses
between. -/
structure ISTClock where
  dateOrdinal : Nat
  todayFmt : String
  fullFmt : String

/-- Lines 141–151: on a successful timezone lookup, `today_ist_date` is set
to `now_ist.date()` and the code formats with the `Today at` form when
`now_ist.date() == today_ist_date`; the `except` branch falls back to the
UTC rendering. -/
def now_formatted_str (lookup : Option ISTClock) (utcFallback : String) : String :=
  match lookup with
  | some now_ist =>
    let today_ist_date := now_ist.dateOrdinal
    if now_ist.dateOrdinal = today_ist_date then now_ist.todayFmt else now_ist.fullFmt
  | none => utcFallback

/-! ### The valid-list CSV of run_validation (lines 378–402) -/

/-- A written CSV file, as its header fields and its data rows (each row a
list of field values, quoting not modelled). -/
structure CsvFile where
  header : List String
  rows : List (List String)
deriving DecidableEq

/-- The state of `valid_stock_list_file` after step 5 of `run_validation`
(lines 378–402): when any valid entry exists the file is rewritten with the
`symbol, isin` columns of the valid results; otherwise nothing is written
and a leftover file from a previous run is removed. -/
def save_valid_list (valid : List Stock) (existing : Option CsvFile) :
    Option CsvFile :=
  if valid.isEmpty then none
  else
    some { header := ["symbol", "isin"]
         , rows := valid.map fun s => [s.symbol, s.isin] }

/-! ### Budget predicate and concrete inputs used in counterexamples and witnesses -/

/-- Both description budgets hold for a chunk. -/
def descOk (s : String) : Prop :=
  s.length ≤ MAX_CHARS_PER_DESC ∧ countNewlines s ≤ MAX_LINES_PER_DESC

/-- An environment where only the docs folder holds a success report while
the configured report folder is empty. -/
def envC2 : PublishEnv :=
  { projectRoot := "proj"
  , reportDir := "reports"
  , listing := fun dir => if dir = "proj/docs" then ["success_report_20250101.html"] else []
  , addOk := true, commitOk := true, pushOk := true }

/-- An environment with the same report folder as `envC2` but with nothing
anywhere on disk. -/
def envC2a : PublishEnv :=
  { projectRoot := "proj"
  , reportDir := "reports"
  , listing := fun _ => []
  , addOk := true, commitOk := true, pushOk := true }

/-- An environment in which `git add` succeeds and `git commit` fails. -/
def envC7 : PublishEnv :=
  { projectRoot := "proj"
  , reportDir := "reports"
  , listing := fun _ => []
  , addOk := true, commitOk := false, pushOk := true }

/-- An invalid entry whose single rendered line exceeds both description
budgets: its symbol is 3841 newline characters, so the one rendered line is
3849 characters long and holds 3842 newlines. -/
def stockC5 : Stock :=
  { symbol := ⟨List.replicate 3841 '\n'⟩, isin := "X" }

/-- An ordinary short invalid entry. -/
def stockOk : Stock := { symbol := "RELIANCE", isin := "INE002A01018" }

/-! ## Theorems -/

/-! ### Helper lemmas about `splitOnChar` -/

theorem splitOnChar_ne_nil (c : Char) (l : List Char) : splitOnChar c l ≠ [] := by
  cases l with
  | nil => simp [splitOnChar]
  | cons x xs =>
    simp only [splitOnChar]
    cases h : splitOnChar c xs with
    | nil => simp
    | cons a t => by_cases hx : x = c <;> simp [hx]

theorem splitOnChar_of_not_mem (c : Char) (l : List Char) (h : c ∉ l) :
    splitOnChar c l = [l] := by
  induction l with
  | nil => rfl
  | cons x xs ih =>
    simp only [List.mem_cons, not_or] at h
    simp only [splitOnChar, ih h.2]
    rw [if_neg fun hx => h.1 hx.symm]

theorem splitOnChar_append (c : Char) (l r : List Char) (h : c ∉ l) :
    splitOnChar c (l ++ c :: r) = l :: splitOnChar c r := by
  induction l with
  | nil =>
    cases hr : splitOnChar c r with
    | nil => exact absurd hr (splitOnChar_ne_nil c r)
    | cons a t => simp [splitOnChar, hr]
  | cons x xs ih =>
    simp only [List.mem_cons, not_or] at h
    have hx : ¬ x = c := fun hx => h.1 hx.symm
    have ih' := ih h.2
    simp only [List.cons_append, splitOnChar, List.append_eq, ih', if_neg hx]

/-! ### Helper lemmas about the dict operations -/

theorem dictLookup_dictInsert_self (k : String) (v : α) (d : List (String × α)) :
    dictLookup k (dictInsert k v d) = some v := by
  induction d with
  | nil => simp [dictInsert, dictLookup]
  | cons p rest ih =>
    by_cases hp : p.1 = k
    · simp [dictInsert, dictLookup, hp]
    · simp [dictInsert, dictLookup, hp, ih]

theorem dictLookup_dictInsert_ne (k k' : String) (v : α) (d : List (String × α))
    (h : k' ≠ k) : dictLookup k' (dictInsert k v d) = dictLookup k' d := by
  induction d with
  | nil => simp [dictInsert, dictLookup, Ne.symm h]
  | cons p rest ih =>
    by_cases hp : p.1 = k
    · simp [dictInsert, dictLookup, hp, Ne.symm h]
    · simp only [dictInsert, if_neg hp, dictLookup]
      split <;> simp [ih]

theorem dictKeys_dictInsert (k : String) (v : α) (d : List (String × α)) :
    dictKeys (dictInsert k v d) =
      if k ∈ dictKeys d then dictKeys d else dictKeys d ++ [k] := by
  induction d with
  | nil => simp [dictInsert, dictKeys]
  | cons p rest ih =>
    by_cases hp : p.1 = k
    · simp [dictInsert, dictKeys, hp]
    · have hk2 : ¬ k = p.1 := fun hh => hp hh.symm
      simp only [dictInsert, if_neg hp, dictKeys, List.map_cons, List.mem_cons]
      simp only [dictKeys] at ih
      rw [ih]
      by_cases hk : k ∈ rest.map Prod.fst
      · simp [hk]
      · simp [hk, hk2]

theorem nodup_dictKeys_dictInsert (k : String) (v : α) (d : List (String × α))
    (h : (dictKeys d).Nodup) : (dictKeys (dictInsert k v d)).Nodup := by
  rw [dictKeys_dictInsert]
  by_cases hk : k ∈ dictKeys d
  · simpa [hk]
  · have hnd : (dictKeys d ++ [k]).Nodup := by
      rw [List.nodup_append]
      refine ⟨h, List.nodup_singleton k, ?_⟩
      intro a ha hak
      rw [List.mem_singleton] at hak
      exact hk (hak ▸ ha)
    simpa [hk] using hnd

/-! ### Helper lemmas about the daily dict -/

theorem dictLookup_foldl_dailyStep (files : List Filepath)
    (acc : List (String × Filepath)) (d : String) :
    dictLookup d (files.foldl dailyStep acc) =
      (lastParsed files d).or (dictLookup d acc) := by
  induction files generalizing acc with
  | nil => simp [lastParsed]
  | cons fp files ih =>
    rw [List.foldl_cons, ih]
    have hsplit : lastParsed (fp :: files) d =
        (lastParsed files d).or
          (if parse_trading_date fp.2 = some d then some fp else none) := by
      simp [lastParsed, List.find?_append]
    rw [hsplit]
    cases hl : lastParsed files d with
    | some x => simp
    | none =>
      simp only [Option.none_or]
      by_cases hp : parse_trading_date fp.2 = some d
      · simp only [if_pos hp, dailyStep, hp]
        exact dictLookup_dictInsert_self d fp acc
      · cases hq : parse_trading_date fp.2 with
        | none => simp [if_neg hp, dailyStep, hq]
        | some e =>
          have hne : d ≠ e := fun h => hp (h ▸ hq)
          simp [if_neg hp, dailyStep, hq, Ne.symm hne,
            dictLookup_dictInsert_ne e d fp acc hne]

/-- Last-write-wins: the daily dict maps each date to the file discovered
last among the files carrying that date. -/
theorem dictLookup_buildDaily (files : List Filepath) (d : String) :
    dictLookup d (buildDaily files) = lastParsed files d := by
  rw [buildDaily, dictLookup_foldl_dailyStep]
  cases h : lastParsed files d <;> simp [dictLookup]

theorem nodup_dictKeys_foldl (files : List Filepath)
    (acc : List (String × Filepath)) (h : (dictKeys acc).Nodup) :
    (dictKeys (files.foldl dailyStep acc)).Nodup := by
  induction files generalizing acc with
  | nil => simpa
  | cons fp files ih =>
    rw [List.foldl_cons]
    apply ih
    unfold dailyStep
    cases hp : parse_trading_date fp.2 with
    | none => simpa
    | some d => exact nodup_dictKeys_dictInsert d fp acc h

theorem nodup_dictKeys_buildDaily (files : List Filepath) :
    (dictKeys (buildDaily files)).Nodup :=
  nodup_dictKeys_foldl files [] (by simp [dictKeys])

/-! ### Helper lemmas about the top-5 date selection -/

theorem length_sortedDates_le (d : List (String × Filepath)) :
    (sortedDates d).length ≤ 5 :=
  List.length_take_le 5 _

theorem sortedDates_pairwise_gt (d : List (String × Filepath))
    (h : (dictKeys d).Nodup) :
    (sortedDates d).Pairwise (fun a b : String => b < a) := by
  have hs : (List.insertionSort (· ≥ ·) (dictKeys d)).Pairwise (· ≥ ·) :=
    List.sorted_insertionSort (· ≥ ·) (dictKeys d)
  have hnd : (List.insertionSort (· ≥ ·) (dictKeys d)).Nodup :=
    (List.perm_insertionSort (· ≥ ·) (dictKeys d)).nodup_iff.mpr h
  have hgt : (List.insertionSort (· ≥ ·) (dictKeys d)).Pairwise
      (fun a b : String => b < a) :=
    (hs.and hnd).imp fun hab => lt_of_le_of_ne hab.1 (Ne.symm hab.2)
  exact List.Pairwise.sublist (List.take_sublist 5 _) hgt

theorem length_roleEntries_le (files : List Filepath) :
    (roleEntries files).length ≤ 5 :=
  le_trans (List.length_filterMap_le _ _) (length_sortedDates_le _)

theorem roleEntries_pairwise_gt (files : List Filepath) :
    (roleEntries files).Pairwise
      (fun a b : String × String => b.1 < a.1) := by
  have hp := sortedDates_pairwise_gt (buildDaily files) (nodup_dictKeys_buildDaily files)
  refine List.Pairwise.filterMap _ (fun a a' hlt b hb b' hb' => ?_) hp
  cases hda : dictLookup a (buildDaily files) with
  | none => simp [hda] at hb
  | some fp =>
    cases hda' : dictLookup a' (buildDaily files) with
    | none => simp [hda'] at hb'
    | some fp' =>
      rw [hda] at hb
      rw [hda'] at hb'
      simp only [Option.map_some', Option.mem_def, Option.some.injEq] at hb hb'
      rw [← hb, ← hb']
      exact hlt

/-! ### Helper lemmas about the Discord chunking loop -/

theorem countNewlines_append (a b : String) :
    countNewlines (a ++ b) = countNewlines a + countNewlines b := by
  simp [countNewlines, List.count_append]

theorem chunkStep_preserves (acc : List String × String) (line : String)
    (hline : line.length ≤ MAX_CHARS_PER_DESC ∧ countNewlines line = 1)
    (h1 : ∀ c ∈ acc.1, descOk c) (h2 : descOk acc.2) :
    (∀ c ∈ (chunkStep acc line).1, descOk c) ∧ descOk (chunkStep acc line).2 := by
  have hlineOk : descOk line :=
    ⟨hline.1, hline.2 ▸ (by decide : (1 : Nat) ≤ MAX_LINES_PER_DESC)⟩
  unfold chunkStep
  split
  · refine ⟨fun c hc => ?_, hlineOk⟩
    rcases List.mem_append.mp hc with h | h
    · exact h1 c h
    · rw [List.mem_singleton] at h
      exact h ▸ h2
  · next hc =>
    refine ⟨h1, ?_, ?_⟩
    · by_cases hlen : MAX_CHARS_PER_DESC < acc.2.length + line.length
      · have hemp : acc.2 = "" := by
          by_contra hne
          exact hc (Or.inl ⟨hlen, hne⟩)
        rw [hemp]
        simpa using hline.1
      · rw [String.length_append]
        omega
    · have hcnt : countNewlines acc.2 < MAX_LINES_PER_DESC := by
        by_contra hge
        exact hc (Or.inr (le_of_not_lt hge))
      rw [countNewlines_append, hline.2]
      omega

theorem chunk_fold_invariant (lines : List String)
    (hl : ∀ l ∈ lines, l.length ≤ MAX_CHARS_PER_DESC ∧ countNewlines l = 1)
    (acc : List String × String)
    (h1 : ∀ c ∈ acc.1, descOk c) (h2 : descOk acc.2) :
    (∀ c ∈ (lines.foldl chunkStep acc).1, descOk c) ∧
      descOk (lines.foldl chunkStep acc).2 := by
  induction lines generalizing acc with
  | nil => exact ⟨h1, h2⟩
  | cons line lines ih =>
    have hline := hl line (List.mem_cons_self line lines)
    have hrest : ∀ l ∈ lines, l.length ≤ MAX_CHARS_PER_DESC ∧ countNewlines l = 1 :=
      fun l hm => hl l (List.mem_cons_of_mem line hm)
    rw [List.foldl_cons]
    have hstep := chunkStep_preserves acc line hline h1 h2
    exact ih hrest (chunkStep acc line) hstep.1 hstep.2

/-- Every description of `invalidChunks` respects both budgets, provided
every rendered line fits the character budget and holds exactly its one
terminating newline. -/
theorem invalidChunks_descOk (invalid : List Stock)
    (hl : ∀ l ∈ invalidLines invalid,
      l.length ≤ MAX_CHARS_PER_DESC ∧ countNewlines l = 1) :
    ∀ c ∈ invalidChunks invalid, descOk c := by
  have hinv := chunk_fold_invariant (invalidLines invalid) hl ([], "")
    (by simp) (by constructor <;> simp [countNewlines])
  intro c hc
  unfold invalidChunks at hc
  by_cases hlast : ((invalidLines invalid).foldl chunkStep ([], "")).2 ≠ ""
  · rw [if_pos hlast] at hc
    rcases List.mem_append.mp hc with h | h
    · exact hinv.1 c h
    · rw [List.mem_singleton] at h
      exact h ▸ hinv.2
  · rw [if_neg hlast] at hc
    exact hinv.1 c hc

theorem webhookBatches_length_le (embeds : List Embed) :
    ∀ b ∈ webhookBatches embeds, b.length ≤ max_embeds_per_message := by
  intro b hb
  unfold webhookBatches at hb
  rw [List.mem_filter] at hb
  rcases List.mem_map.mp hb.1 with ⟨i, _, hib⟩
  rw [← hib]
  exact List.length_take_le _ _

/-! ### Helper lemma: date-token extraction on well-formed report names -/

theorem parse_trading_date_wellformed (role day : String)
    (hrole : '_' ∉ role.data)
    (hdigits : ∀ ch ∈ day.data, ch.isDigit) :
    parse_trading_date (role ++ "_report_" ++ day ++ ".html") = some day := by
  have hdayU : '_' ∉ day.data := fun hm =>
    absurd (hdigits '_' hm) (by decide)
  have hdayD : '.' ∉ day.data := fun hm =>
    absurd (hdigits '.' hm) (by decide)
  have hdata : (role ++ "_report_" ++ day ++ ".html").data =
      role.data ++ '_' :: ("report".data ++ '_' :: (day.data ++ ".html".data)) := by
    simp [String.data_append, List.append_assoc]
  have hsplitU : splitOnChar '_' (role ++ "_report_" ++ day ++ ".html").data =
      [role.data, "report".data, day.data ++ ".html".data] := by
    rw [hdata, splitOnChar_append '_' role.data _ hrole,
      splitOnChar_append '_' "report".data _ (by decide)]
    have hno : '_' ∉ day.data ++ ".html".data := by
      rw [List.mem_append, not_or]
      exact ⟨hdayU, by decide⟩
    rw [splitOnChar_of_not_mem '_' _ hno]
  have hseg : (pySplit '_' (role ++ "_report_" ++ day ++ ".html")).get? 2 =
      some ⟨day.data ++ ".html".data⟩ := by
    rw [pySplit, hsplitU]
    rfl
  rw [parse_trading_date, hseg]
  have hsplitD : splitOnChar '.' (day.data ++ ".html".data) =
      day.data :: splitOnChar '.' "html".data := by
    rw [show (".html".data : List Char) = '.' :: "html".data from rfl]
    exact splitOnChar_append '.' day.data _ hdayD
  simp only [pySplit, String.data]
  rw [hsplitD]
  rfl

/-! ### Helper lemmas: the chunking loop on a single invalid entry -/

theorem stockLine_length_ge_two (st : Stock) : 2 ≤ (stockLine 0 st).length := by
  simp only [stockLine, String.length_append]
  have h4 : ((")\n" : String)).length = 2 := rfl
  omega

theorem invalidChunks_singleton (st : Stock) :
    invalidChunks [st] = ["" ++ stockLine 0 st] := by
  have hlines : invalidLines [st] = [stockLine 0 st] := rfl
  have hcond : ¬((MAX_CHARS_PER_DESC <
        ("" : String).length + (stockLine 0 st).length ∧ ("" : String) ≠ "") ∨
      MAX_LINES_PER_DESC ≤ countNewlines "") := by
    have h0 : countNewlines "" = 0 := rfl
    simp [h0, MAX_LINES_PER_DESC]
  have hr : (invalidLines [st]).foldl chunkStep ([], "") =
      ([], "" ++ stockLine 0 st) := by
    rw [hlines, List.foldl_cons, List.foldl_nil]
    unfold chunkStep
    split
    · next hcc => exact absurd hcc hcond
    · rfl
  have hne2 : ("" ++ stockLine 0 st) ≠ "" := by
    intro h
    have hL := congrArg String.length h
    rw [String.length_append] at hL
    have h0 : ("" : String).length = 0 := rfl
    have h2 := stockLine_length_ge_two st
    omega
  simp only [invalidChunks]
  rw [hr]
  show (if ("" ++ stockLine 0 st) ≠ "" then [] ++ ["" ++ stockLine 0 st] else []) =
    ["" ++ stockLine 0 st]
  rw [if_pos hne2]
  rfl

theorem single_invalid_embed_desc (st : Stock) :
    ((embeds_to_send [] [st] 1).getD 1 ⟨"", ""⟩).description =
      "" ++ stockLine 0 st := by
  unfold embeds_to_send invalidEmbeds
  rw [if_neg (by simp : ¬([st] : List Stock) = [])]
  rw [invalidChunks_singleton st]
  rfl

/-! ### Claim theorems -/

/-- C1: for every call to `validate_instrument_key`, a first-attempt 404 or
400 returns invalid immediately with zero retries (one request, no sleeps);
a first-attempt 200-with-non-success status, 429, other HTTP status,
network/timeout error, or unexpected exception triggers exactly one retry
after the fixed 3-second delay, returning invalid when the retry does not
succeed; and no execution ever performs more than one retry. -/
theorem C1_validate_retry_policy (resp : Nat → ApiOutcome) :
    ((resp 0 = ApiOutcome.http404 ∨ resp 0 = ApiOutcome.http400) →
      validate_instrument_key resp = ⟨false, 1, []⟩) ∧
    ((resp 0 = ApiOutcome.http200 false ∨ resp 0 = ApiOutcome.http429 ∨
        resp 0 = ApiOutcome.httpOther ∨ resp 0 = ApiOutcome.requestError ∨
        resp 0 = ApiOutcome.unexpectedError) →
      (validate_instrument_key resp).attempts = 2 ∧
      (validate_instrument_key resp).sleeps = [3] ∧
      (attemptOutcome (resp 1) ≠ some true →
        (validate_instrument_key resp).result = false)) ∧
    (validate_instrument_key resp).attempts ≤ 2 := by
  refine ⟨?_, ?_, ?_⟩
  · rintro (h | h) <;> simp [validate_instrument_key, h, attemptOutcome]
  · intro h
    have h0 : attemptOutcome (resp 0) = none := by
      rcases h with h | h | h | h | h <;> simp [h, attemptOutcome]
    unfold validate_instrument_key
    rw [h0]
    cases h1 : attemptOutcome (resp 1) with
    | none => exact ⟨rfl, rfl, fun _ => rfl⟩
    | some b =>
      refine ⟨rfl, rfl, fun hne => ?_⟩
      cases b with
      | true => exact absurd rfl hne
      | false => rfl
  · unfold validate_instrument_key
    cases attemptOutcome (resp 0) with
    | some b => simp
    | none =>
      cases attemptOutcome (resp 1) with
      | some b => simp
      | none => simp

/-- Witness for C1 at concrete inputs: a 404 on the first attempt yields
invalid after a single request, and a 429 on the first attempt yields a
second request. -/
theorem C1_validate_retry_policy_witness :
    validate_instrument_key (fun _ => ApiOutcome.http404) = ⟨false, 1, []⟩ ∧
    (validate_instrument_key (fun _ => ApiOutcome.http429)).attempts = 2 :=
  ⟨(C1_validate_retry_policy (fun _ => ApiOutcome.http404)).1 (Or.inl rfl),
    ((C1_validate_retry_policy (fun _ => ApiOutcome.http429)).2.1
      (Or.inr (Or.inl rfl))).1⟩

/-- C2 counterexample: the claim says the landing-page scan runs over the
destination docs folder, but `update_landing_page` scans the configured
report folder. In `envC2` the docs folder holds a success report and the
report folder is empty, and the two scan targets produce different pages. -/
theorem C2_counterexample :
    update_landing_page envC2 ≠ update_landing_page_specScan envC2 := by
  decide

/-- C2 as amended: `update_landing_page` scans the configured source report
folder (`config.settings` paths / report_dir) — not the docs destination
folder: the page it builds depends only on that folder's listing, so any
change confined to the docs folder leaves the page unchanged. -/
theorem C2_amended_scans_report_dir (env env' : PublishEnv)
    (hdir : env.reportDir = env'.reportDir)
    (hlist : env.listing env.reportDir = env'.listing env'.reportDir) :
    update_landing_page env = update_landing_page env' := by
  unfold update_landing_page success_files failure_files globScan
  rw [hdir] at hlist ⊢
  rw [hlist]

/-- Witness for the amended C2: emptying the docs folder of `envC2` leaves
the generated landing page unchanged. -/
theorem C2_amended_scans_report_dir_witness :
    update_landing_page envC2a = update_landing_page envC2 :=
  C2_amended_scans_report_dir envC2a envC2 rfl (by decide)

/-- C3: for every environment, each role section of the generated landing
page holds at most 5 entries, and the entries are ordered by strictly
descending date token. -/
theorem C3_landing_top5_descending (env : PublishEnv) :
    ((update_landing_page env).successEntries.length ≤ 5 ∧
      (update_landing_page env).successEntries.Pairwise
        (fun a b : String × String => b.1 < a.1)) ∧
    ((update_landing_page env).failureEntries.length ≤ 5 ∧
      (update_landing_page env).failureEntries.Pairwise
        (fun a b : String × String => b.1 < a.1)) :=
  ⟨⟨length_roleEntries_le _, roleEntries_pairwise_gt _⟩,
    ⟨length_roleEntries_le _, roleEntries_pairwise_gt _⟩⟩

/-- C4: for every discovery sequence of files of one role and every date
token, the daily dict built by the landing-page loop maps that date to the
file discovered last among the files carrying that date (last-write-wins on
duplicate dates). -/
theorem C4_last_write_wins (files : List Filepath) (d : String) :
    dictLookup d (buildDaily files) = lastParsed files d :=
  dictLookup_buildDaily files d

/-- C5 counterexample: the claim promises every invalid-list embed
description respects the 3800-character and 45-line budgets for every list
of invalid entries, but a single entry whose rendered line is itself over
budget (symbol of `stockC5`) produces a description that exceeds both. -/
theorem C5_counterexample :
    MAX_CHARS_PER_DESC <
        (((embeds_to_send [] [stockC5] 1).getD 1 ⟨"", ""⟩).description).length ∧
      MAX_LINES_PER_DESC <
        countNewlines (((embeds_to_send [] [stockC5] 1).getD 1 ⟨"", ""⟩).description) := by
  have hsymlen : stockC5.symbol.length = 3841 := by
    show (String.mk (List.replicate 3841 '\n')).length = 3841
    rw [String.length_mk, List.length_replicate]
  have hlen : (stockLine 0 stockC5).length = 3849 := by
    simp only [stockLine, String.length_append, hsymlen]
    rfl
  have hcnt : countNewlines (stockLine 0 stockC5) = 3842 := by
    simp only [stockLine, countNewlines, String.data_append, List.count_append]
    rw [show stockC5.symbol.data = List.replicate 3841 '\n' from rfl,
      List.count_replicate_self]
    rfl
  rw [single_invalid_embed_desc stockC5]
  constructor
  · rw [String.length_append, hlen]
    decide
  · rw [countNewlines_append, hcnt]
    decide

/-- C5 as amended: provided each rendered invalid-stock line fits the
3800-character budget and holds exactly its one terminating newline, every
invalid-list embed description is within the 3800-character and 45-line
budgets (a new chunk starts when either budget would be exceeded), and the
embeds are batched into webhook requests of at most 10 embeds each (the
batching bound holds unconditionally). -/
theorem C5_amended_chunk_budgets (valid invalid : List Stock) (total : Nat)
    (hl : ∀ l ∈ invalidLines invalid,
      l.length ≤ MAX_CHARS_PER_DESC ∧ countNewlines l = 1) :
    (∀ e ∈ invalidEmbeds invalid,
      e.description.length ≤ MAX_CHARS_PER_DESC ∧
        countNewlines e.description ≤ MAX_LINES_PER_DESC) ∧
    (∀ b ∈ webhookBatches (embeds_to_send valid invalid total),
      b.length ≤ max_embeds_per_message) := by
  constructor
  · intro e he
    unfold invalidEmbeds at he
    by_cases hinv : invalid = []
    · rw [if_pos hinv] at he
      cases he
    · rw [if_neg hinv] at he
      rcases List.mem_map.mp he with ⟨p, hp, hpe⟩
      have hdesc : e.description = p.2 := by rw [← hpe]
      have hmem : p.2 ∈ invalidChunks invalid := by
        have h2 := List.mem_map_of_mem Prod.snd hp
        rwa [List.enum_map_snd] at h2
      rw [hdesc]
      exact invalidChunks_descOk invalid hl p.2 hmem
  · exact webhookBatches_length_le _

/-- Witness for the amended C5 at a concrete short invalid list. -/
theorem C5_amended_chunk_budgets_witness :
    (∀ e ∈ invalidEmbeds [stockOk],
      e.description.length ≤ MAX_CHARS_PER_DESC ∧
        countNewlines e.description ≤ MAX_LINES_PER_DESC) ∧
    (∀ b ∈ webhookBatches (embeds_to_send [] [stockOk] 1),
      b.length ≤ max_embeds_per_message) :=
  C5_amended_chunk_budgets [] [stockOk] 1 (by decide)

/-- C6: after the run, when at least one valid entry exists the valid-list
CSV holds the header `symbol,isin` followed by exactly one row per valid
entry carrying only the symbol and isin columns; when no valid entry
exists, no CSV is written and any file left from a previous run is gone. -/
theorem C6_valid_csv (valid : List Stock) (existing : Option CsvFile) :
    (valid ≠ [] →
      save_valid_list valid existing =
        some { header := ["symbol", "isin"]
             , rows := valid.map fun s => [s.symbol, s.isin] } ∧
      ∀ f, save_valid_list valid existing = some f →
        f.rows.length = valid.length) ∧
    (valid = [] → save_valid_list valid existing = none) := by
  constructor
  · intro hne
    have hno : ¬ valid.isEmpty := by
      simpa [List.isEmpty_iff] using hne
    refine ⟨by simp [save_valid_list, hno], fun f hf => ?_⟩
    simp only [save_valid_list, if_neg hno, Option.some.injEq] at hf
    rw [← hf]
    simp
  · intro h
    simp [save_valid_list, h]

/-- Witness for C6 at a one-entry valid list and at the empty valid list. -/
theorem C6_valid_csv_witness :
    save_valid_list [stockOk] none =
      some { header := ["symbol", "isin"], rows := [["RELIANCE", "INE002A01018"]] } ∧
    save_valid_list [] (some ⟨["symbol", "isin"], []⟩) = none :=
  ⟨((C6_valid_csv [stockOk] none).1 (by decide)).1,
    (C6_valid_csv [] (some ⟨["symbol", "isin"], []⟩)).2 rfl⟩

/-- C7: `publish_both_reports` runs add, commit, push in that order as
discrete steps; a failed add stops everything after the add, a failed
commit stops the push, and steps already run are never undone (the step
list is always a prefix of add-commit-push, never a rollback). -/
theorem C7_git_step_gating (env : PublishEnv) (s f : Option String) :
    ((publish_both_reports env s f).gitSteps <+:
        [GitStep.add, GitStep.commit, GitStep.push]) ∧
    (env.addOk = false → (publish_both_reports env s f).gitSteps = [GitStep.add]) ∧
    (env.addOk = true → env.commitOk = false →
      (publish_both_reports env s f).gitSteps = [GitStep.add, GitStep.commit]) ∧
    (env.addOk = true → env.commitOk = true →
      (publish_both_reports env s f).gitSteps =
        [GitStep.add, GitStep.commit, GitStep.push]) := by
  refine ⟨?_, ?_, ?_, ?_⟩
  · cases ha : env.addOk <;> cases hc : env.commitOk <;>
      simp only [publish_both_reports, publishGitSteps, ha, hc,
        Bool.false_eq_true, if_false, if_true] <;>
      first
      | exact ⟨[GitStep.commit, GitStep.push], rfl⟩
      | exact ⟨[GitStep.push], rfl⟩
      | exact ⟨[], rfl⟩
  · intro ha
    simp [publish_both_reports, publishGitSteps, ha]
  · intro ha hc
    simp [publish_both_reports, publishGitSteps, ha, hc]
  · intro ha hc
    simp [publish_both_reports, publishGitSteps, ha, hc]

/-- Witness for C7: with a successful add and a failed commit, exactly add
then commit run and the push never does. -/
theorem C7_git_step_gating_witness :
    (publish_both_reports envC7 none none).gitSteps = [GitStep.add, GitStep.commit] :=
  (C7_git_step_gating envC7 none none).2.2.1 rfl rfl

/-- C8: for every well-formed report filename `<role>_report_<8 digits>.html`
the extracted date token is exactly the 8-digit substring, and the daily
dict only ever holds files whose token parsed (malformed names are skipped);
the page build is a total function of the listing, so no filename can make
it raise. -/
theorem C8_token_extraction_and_skip :
    (∀ role day : String, '_' ∉ role.data → day.data.length = 8 →
      (∀ ch ∈ day.data, ch.isDigit) →
      parse_trading_date (role ++ "_report_" ++ day ++ ".html") = some day) ∧
    (∀ (files : List Filepath) (d : String) (fp : Filepath),
      dictLookup d (buildDaily files) = some fp →
      fp ∈ files ∧ parse_trading_date fp.2 = some d) := by
  constructor
  · intro role day hrole _ hdig
    exact parse_trading_date_wellformed role day hrole hdig
  · intro files d fp hf
    rw [dictLookup_buildDaily] at hf
    unfold lastParsed at hf
    constructor
    · exact List.mem_reverse.mp (List.mem_of_find?_eq_some hf)
    · have hp := List.find?_some hf
      simpa using hp

/-- Witness for C8 at the concrete filename success_report_20250430.html. -/
theorem C8_token_extraction_and_skip_witness :
    parse_trading_date ("success" ++ "_report_" ++ "20250430" ++ ".html") =
      some "20250430" :=
  C8_token_extraction_and_skip.1 "success" "20250430" (by decide) (by decide)
    (by decide)

/-- C9: `publish_both_reports` never reads its success_filepath and
failure_filepath parameters — two invocations in the same environment with
any two argument pairs (including None) produce identical synced files,
landing page, and git steps. -/
theorem C9_report_paths_unused (env : PublishEnv)
    (s f s' f' : Option String) :
    publish_both_reports env s f = publish_both_reports env s' f' := rfl

/-- C10: whenever the timezone lookup succeeds, the comparison of the
current IST date with itself is true, so the notification timestamp always
uses the `Today at` rendering and the non-today branch is unreachable. -/
theorem C10_timestamp_always_today (lookup : Option ISTClock)
    (utcFallback : String) (now_ist : ISTClock) (h : lookup = some now_ist) :
    now_formatted_str lookup utcFallback = now_ist.todayFmt := by
  subst h
  simp [now_formatted_str]

/-- Witness for C10 at a concrete clock value. -/
theorem C10_timestamp_always_today_witness :
    now_formatted_str
        (some ⟨20251012, "Today at 09:30 AM", "12 Oct 2025, 09:30 AM"⟩)
        "12 Oct 2025, 04:00 UTC" = "Today at 09:30 AM" :=
  C10_timestamp_always_today _ _ _ rfl

end ZT3
